import Mathlib

/-!
Shallow embedding of the core of the refcounted-var-sized-class
repository: `src/int_or_ptr.h` (a tagged integer-or-reference word) and
`src/copy_on_write.h` (a deferred-copy, copy-on-write wrapper), over a
model of the external reference-counted heap handle primitive declared in
`ref.h`. Machine words (`intptr_t`) are modelled as mathematical integers
with explicit wrapping at 64 bits; heap handles are modelled by the
addresses of their cells.
-/

namespace Refptr

/-- Modelled from the spec: the external reference-counted heap handle
primitive of `ref.h`, which the sources include but which is not among
them. The heap maps addresses to pointees (`val`, which is `none` when
the cell is unallocated or freed) and to reference counts (`rc`); `next`
is a fresh address; `constructions` counts heap constructions of the
element type (each `New<T>(...)`), of which `copies` counts those
performed by the copy constructor of the element type. -/
structure RefHeap (T : Type) where
  val : Nat → Option T
  rc : Nat → Nat
  next : Nat
  constructions : Nat
  copies : Nat

namespace RefHeap

/-- Heap with no allocations at all. -/
def empty (T : Type) : RefHeap T where
  val := fun _ => none
  rc := fun _ => 0
  next := 0
  constructions := 0
  copies := 0

/-- Modelled from the spec: `New<T>(args...)` heap-allocates and
constructs a `T`; the resulting handle is uniquely owned (reference
count one). Returns the fresh address together with the updated heap. -/
def alloc (h : RefHeap T) (v : T) : Nat × RefHeap T :=
  (h.next,
   { h with
     val := fun b => if b = h.next then some v else h.val b
     rc := fun b => if b = h.next then 1 else h.rc b
     next := h.next + 1
     constructions := h.constructions + 1 })

/-- Same as `alloc`, but the constructed value is obtained from the copy
constructor of the element type (`New<T>(*copy)`), so `copies` is
incremented as well. -/
def allocCopy (h : RefHeap T) (v : T) : Nat × RefHeap T :=
  ((h.alloc v).1, { (h.alloc v).2 with copies := h.copies + 1 })

/-- Modelled from the spec: copying a shared handle increments the
reference count of its cell. -/
def incRef (h : RefHeap T) (a : Nat) : RefHeap T :=
  { h with rc := fun b => if b = a then h.rc a + 1 else h.rc b }

/-- Modelled from the spec: destroying a handle decrements the reference
count of its cell and destroys the pointee when the count reaches zero. -/
def decRef (h : RefHeap T) (a : Nat) : RefHeap T :=
  { h with
    rc := fun b => if b = a then h.rc a - 1 else h.rc b
    val := fun b => if b = a ∧ h.rc a ≤ 1 then none else h.val b }

/-- Writing through a mutable reference into cell `a`. -/
def setVal (h : RefHeap T) (a : Nat) (v : T) : RefHeap T :=
  { h with val := fun b => if b = a then some v else h.val b }

/-- Increment for a possibly null handle (no-op on null). -/
def incIf (h : RefHeap T) : Option Nat → RefHeap T
  | none => h
  | some a => h.incRef a

/-- Release of a possibly null handle (no-op on null). -/
def decIf (h : RefHeap T) : Option Nat → RefHeap T
  | none => h
  | some a => h.decRef a

end RefHeap

/-- Modelled from the spec: `Ref<const T>::AttemptToClaim()` converts a
shared handle into an exclusive one exactly when it is the sole owner
(reference count one), else returns the shared handle unchanged. `inl`
is the exclusive (claimed) outcome and `inr` the still-shared one; the
heap is unchanged in both cases. The contract covers only non-null
handles. -/
def attemptToClaim (h : RefHeap T) (a : Nat) : Nat ⊕ Nat :=
  if h.rc a = 1 then Sum.inl a else Sum.inr a

/-- Wrapping of a mathematical integer to a 64-bit `intptr_t` in
two-complement representation (the numerals are 2 to the 63rd and 2 to
the 64th powers). -/
def wrap64 (x : Int) : Int :=
  (x + 9223372036854775808) % 18446744073709551616 - 9223372036854775808

/-- Embeds `internal::IntOrValue<T>` of `src/int_or_ptr.h`: a union of a
tagged integer word `number_` and a value `value_` (a `Ref` handle in
the only instantiation the header makes). The `number` constructor
stores the raw word. -/
inductive IntOrValue (T : Type) where
  | num (w : Int)
  | val (v : T)
deriving DecidableEq

namespace IntOrValue

/-- Embeds `IntOrValue(intptr_t value)`: the stored word is
`(value << 1) | 1`. -/
def ofInt (v : Int) : IntOrValue T :=
  .num (wrap64 (2 * v + 1))

/-- Embeds `IntOrValue()`, which delegates to `IntOrValue(0)`. -/
def mkDefault : IntOrValue T := ofInt 0

/-- Embeds `IntOrValue(absl::in_place_t, args...)`: constructs the value
alternative. -/
def inPlace (v : T) : IntOrValue T := .val v

/-- Embeds `has_number()`: tests the least significant bit of the stored
word. In the `value` alternative the stored bytes are those of an
allocated pointer, whose least significant bit is zero by the alignment
invariant of the allocator. -/
def has_number : IntOrValue T → Bool
  | .num w => w % 2 == 1
  | .val _ => false

/-- Embeds `has_value()`. -/
def has_value (x : IntOrValue T) : Bool := !x.has_number

/-- Embeds `number()`: the stored word shifted right arithmetically by
one bit (floor division by two) when the discriminant bit is set, absent
otherwise. -/
def number : IntOrValue T → Option Int
  | .num w => if w % 2 == 1 then some (Int.fdiv w 2) else none
  | .val _ => none

/-- Embeds `value()`: a pointer to the contained value, null when the
integer alternative is live. -/
def value : IntOrValue T → Option T
  | .num _ => none
  | .val v => some v

/-- Embeds `operator=(IntOrValue &&that)`, which is
`std::swap(number_, that.number_)` on the raw storage. Given
`dst = std::move(src)`, returns the pair (dst after, src after). -/
def movAssign (dst src : IntOrValue T) : IntOrValue T × IntOrValue T :=
  (src, dst)

/-- Embeds `IntOrValue(IntOrValue &&that)`: default-constructs and then
move-assigns from `that`. Returns (constructed instance, source after). -/
def movCtor (src : IntOrValue T) : IntOrValue T × IntOrValue T :=
  movAssign mkDefault src

end IntOrValue

/-- Embeds `IntOrRef<T>` of `src/int_or_ptr.h`: its single field is
`value_ : IntOrValue<Ref<T>>`, a `Ref` being modelled by the address of
its heap cell. Constness of the element type is a compile-time property
erased by the embedding. -/
structure IntOrRef (T : Type) where
  value_ : IntOrValue Nat
deriving DecidableEq

namespace IntOrRef

/-- Embeds `IntOrRef(I value)` (and, at value zero, `IntOrRef()`). -/
def ofInt (v : Int) : IntOrRef T := ⟨IntOrValue.ofInt v⟩

/-- Embeds `IntOrRef(Ref<T> ref)`: adopts an existing handle. -/
def ofRef (a : Nat) : IntOrRef T := ⟨IntOrValue.inPlace a⟩

/-- Embeds `IntOrRef(absl::in_place_t, args...)`: `New<T>(args...)` on
the heap, then adoption of the fresh handle. -/
def inPlaceH (h : RefHeap T) (v : T) : IntOrRef T × RefHeap T :=
  ((ofRef (h.alloc v).1), (h.alloc v).2)

/-- Embeds `has_number()`. -/
def has_number (x : IntOrRef T) : Bool := x.value_.has_number

/-- Embeds `has_ref()`. -/
def has_ref (x : IntOrRef T) : Bool := x.value_.has_value

/-- Embeds `number()`. -/
def number (x : IntOrRef T) : Option Int := x.value_.number

/-- Embeds `ref()`: the address of the pointee when the handle
alternative is live, null otherwise. -/
def ref (x : IntOrRef T) : Option Nat := x.value_.value

/-- Embeds `operator==`: compares the decoded numbers when the left side
holds an integer, returns false for an integer compared with a handle,
and compares the pointees with the equality of the element type when
both hold handles. Undefined (`none`) when a compared pointee address is
not allocated. -/
def beq [BEq T] (h : RefHeap T) (x y : IntOrRef T) : Option Bool :=
  match x.ref with
  | none => some (x.number == y.number)
  | some a =>
    match y.ref with
    | none => some false
    | some b =>
      match h.val a, h.val b with
      | some va, some vb => some (va == vb)
      | _, _ => none

/-- Embeds `IntOrRef(IntOrRef<U> &&unique)` with `T` equal to `const U`:
when the source holds an integer, the word is re-constructed from the
decoded number (`IntOrValue<Ref<T>>(*unique.number())`, the decode being
the stored word shifted right by one); when it holds a handle, the
handle is moved (no heap operation at all). -/
def toConst (h : RefHeap T) (x : IntOrRef T) : IntOrRef T × RefHeap T :=
  match x.value_ with
  | .num w => (⟨IntOrValue.ofInt (Int.fdiv w 2)⟩, h)
  | .val a => (ofRef a, h)

end IntOrRef

theorem wrap64_eq_self {x : Int} (h1 : -9223372036854775808 ≤ x)
    (h2 : x < 9223372036854775808) : wrap64 x = x := by
  unfold wrap64
  omega

theorem wrap64_emod_two (x : Int) : wrap64 x % 2 = x % 2 := by
  unfold wrap64
  omega

theorem wrap64_range (x : Int) :
    -9223372036854775808 ≤ wrap64 x ∧ wrap64 x < 9223372036854775808 := by
  unfold wrap64
  constructor <;> omega

theorem ofInt_word_odd (v : Int) : wrap64 (2 * v + 1) % 2 = 1 := by
  have h := wrap64_emod_two (2 * v + 1)
  omega

theorem ofInt_has_number (T : Type) (v : Int) :
    (IntOrValue.ofInt v : IntOrValue T).has_number = true := by
  have h := ofInt_word_odd v
  simp [IntOrValue.ofInt, IntOrValue.has_number, h]

theorem ofInt_number (T : Type) (v : Int)
    (h1 : -4611686018427387904 ≤ v) (h2 : v < 4611686018427387904) :
    (IntOrValue.ofInt v : IntOrValue T).number = some v := by
  have hw : wrap64 (2 * v + 1) = 2 * v + 1 :=
    wrap64_eq_self (by omega) (by omega)
  have hdiv : Int.fdiv (2 * v + 1) 2 = v := by
    rw [Int.fdiv_eq_ediv _ (by omega : (0 : Int) ≤ 2)]
    omega
  simp [IntOrValue.ofInt, IntOrValue.number, hw, hdiv]
  omega

/-- Claim C1: for every integer representable after a one-bit left shift
(the bounds are minus and plus 2 to the 62nd power), constructing the
tagged type from it yields `has_number() == true` and a `number()` that
decodes back to the integer; every instance constructed from a handle,
directly or in place, has `has_ref() == true` and an absent `number()`. -/
theorem c1_discriminant_correctness (T : Type) (v : Int) (a : Nat)
    (h : RefHeap T) (w : T)
    (hlo : -4611686018427387904 ≤ v) (hhi : v < 4611686018427387904) :
    (IntOrRef.ofInt v : IntOrRef T).has_number = true ∧
    (IntOrRef.ofInt v : IntOrRef T).number = some v ∧
    (IntOrRef.ofRef a : IntOrRef T).has_ref = true ∧
    (IntOrRef.ofRef a : IntOrRef T).number = none ∧
    ((IntOrRef.inPlaceH h w).1).has_ref = true ∧
    ((IntOrRef.inPlaceH h w).1).number = none := by
  refine ⟨?_, ?_, rfl, rfl, rfl, rfl⟩
  · exact ofInt_has_number Nat v
  · exact ofInt_number Nat v hlo hhi

/-- Witness for C1 at the integer 3, address 0, the empty heap and a
pointee 7. -/
theorem c1_witness :
    (IntOrRef.ofInt 3 : IntOrRef Nat).has_number = true ∧
    (IntOrRef.ofInt 3 : IntOrRef Nat).number = some 3 :=
  ⟨(c1_discriminant_correctness Nat 3 0 (RefHeap.empty Nat) 7
      (by decide) (by decide)).1,
   (c1_discriminant_correctness Nat 3 0 (RefHeap.empty Nat) 7
      (by decide) (by decide)).2.1⟩


/-- Embeds `CopyOnWrite<T>` (and its base class `CopyOnWriteNoDef<T>`) of
`src/copy_on_write.h`: the single data member is `ref_ : Ref<const T>`,
null exactly in the lazy-default state; a non-null `Ref` is modelled by
the address of its heap cell. -/
structure CopyOnWrite (T : Type) where
  ref : Option Nat
deriving DecidableEq

namespace CopyOnWrite

/-- Embeds `CopyOnWrite()`: a null handle, the lazy-default state. The
constructor performs no heap operation, so the heap-passing form returns
the heap unchanged. -/
def MkDefaultH (T : Type) (h : RefHeap T) : CopyOnWrite T × RefHeap T :=
  (⟨none⟩, h)

/-- Embeds `CopyOnWrite(absl::in_place_t, args...)`, which runs
`New<T>(args...).Share()`. -/
def InPlaceH (h : RefHeap T) (v : T) : CopyOnWrite T × RefHeap T :=
  (⟨some (h.alloc v).1⟩, (h.alloc v).2)

/-- Embeds `LazyDefault()`, which is `ref_ == nullptr`. -/
def LazyDefault (c : CopyOnWrite T) : Bool := c.ref.isNone

/-- Location of the reference returned by `operator*`: the shared
process-wide default instance (`SharedDefault()`) in the lazy-default
state, else the pointee of the held handle. -/
inductive DerefLoc where
  | sharedDefault
  | cell (a : Nat)
deriving DecidableEq

/-- Embeds `operator*` of `CopyOnWrite`, returning the location of the
referenced instance; no heap operation takes place. -/
def DerefH (h : RefHeap T) (c : CopyOnWrite T) : DerefLoc × RefHeap T :=
  match c.ref with
  | none => (.sharedDefault, h)
  | some a => (.cell a, h)

/-- Embeds `CopyOnWriteNoDef<T>::AsMutable()`: attempts to claim the held
handle, adopting it in place on sole ownership, and otherwise cloning the
pointee through the copy constructor of the element type and releasing
the old alias. Returns the cell the reference points into, the updated
wrapper and the heap. Undefined (`none`) when the held handle is null,
because `AttemptToClaim` on a null handle lies outside the contract of
the handle primitive, or when the pointee cell of a shared handle is
unallocated. -/
def AsMutableNoDef (h : RefHeap T) (c : CopyOnWrite T) :
    Option (Nat × CopyOnWrite T × RefHeap T) :=
  match c.ref with
  | none => none
  | some a =>
    match attemptToClaim h a with
    | .inl owned => some (owned, ⟨some owned⟩, h)
    | .inr shared =>
      match h.val shared with
      | none => none
      | some v =>
        some ((h.allocCopy v).1, ⟨some (h.allocCopy v).1⟩,
          ((h.allocCopy v).2).decRef shared)

/-- Embeds `CopyOnWrite<T>::AsMutable()`: in the lazy-default state it
materializes a fresh default-constructed value (`Adopt(New<T>())`), else
it defers to the base class. The argument `d` stands for the
default-constructed value of the element type. -/
def AsMutable (d : T) (h : RefHeap T) (c : CopyOnWrite T) :
    Option (Nat × CopyOnWrite T × RefHeap T) :=
  match c.ref with
  | none => some ((h.alloc d).1, ⟨some (h.alloc d).1⟩, (h.alloc d).2)
  | some _ => AsMutableNoDef h c

/-- Embeds the rvalue overload `CopyOnWrite<T>::With(F &&mutator) &&`:
it applies the mutator through `CopyOnWriteNoDef<T>::AsMutable()` — the
base-class member, bypassing the lazy-default materialization of the
derived `AsMutable` — and returns the consumed wrapper. -/
def WithConsuming (f : T → T) (h : RefHeap T) (c : CopyOnWrite T) :
    Option (CopyOnWrite T × RefHeap T) :=
  match AsMutableNoDef h c with
  | none => none
  | some (a, c1, h1) =>
    match h1.val a with
    | none => none
    | some v => some (c1, h1.setVal a (f v))

/-- Embeds the const overload `CopyOnWrite<T>::With(F &&mutator) const&`,
which runs `CopyOnWrite(*this).With(mutator)`: it copies the wrapper
(aliasing the held handle, if any) and runs the rvalue overload on the
copy. -/
def With (f : T → T) (h : RefHeap T) (c : CopyOnWrite T) :
    Option (CopyOnWrite T × RefHeap T) :=
  WithConsuming f (h.incIf c.ref) c

/-- Embeds the defaulted move assignment: a member-wise move of `ref_`.
Modelled from the spec: moving a handle nulls its source, and the
overwritten handle of the destination is released. Given
`dst = std::move(src)`, returns (dst after, src after, heap after). -/
def MovAssignH (h : RefHeap T) (dst src : CopyOnWrite T) :
    CopyOnWrite T × CopyOnWrite T × RefHeap T :=
  (⟨src.ref⟩, ⟨none⟩, h.decIf dst.ref)

end CopyOnWrite

/-- Claim C9 as a theorem: the const-widening conversion preserves the
held alternative and the heap: an integer word is rebuilt from its
decode into the identical word (so `number()` is copied verbatim), a
handle is moved to the very same cell, and no heap operation — in
particular no copy of the element type — takes place. -/
theorem c9_const_widening (T : Type) (h : RefHeap T) (v : Int) (a : Nat) :
    IntOrRef.toConst h (IntOrRef.ofInt v : IntOrRef T) =
      (IntOrRef.ofInt v, h) ∧
    IntOrRef.toConst h (IntOrRef.ofRef a : IntOrRef T) =
      (IntOrRef.ofRef a, h) := by
  constructor
  · have hodd := ofInt_word_odd v
    have hrange := wrap64_range (2 * v + 1)
    have hdiv : 2 * Int.fdiv (wrap64 (2 * v + 1)) 2 + 1 =
        wrap64 (2 * v + 1) := by
      rw [Int.fdiv_eq_ediv _ (by omega : (0 : Int) ≤ 2)]
      omega
    simp only [IntOrRef.toConst, IntOrRef.ofInt, IntOrValue.ofInt, hdiv]
    rw [wrap64_eq_self hrange.1 hrange.2]
  · rfl

/-- Claim C10 as a theorem: the move assignment of the tagged type is an
exchange of the two raw storages, not a one-way transfer: the
destination receives exactly the prior source, the source receives
exactly the prior destination, and hence the moved-from source ends at
the default (integer 0) precisely when the destination previously held
the default. -/
theorem c10_move_assignment_swaps (T : Type) (dst src : IntOrValue T) :
    (IntOrValue.movAssign dst src).1 = src ∧
    (IntOrValue.movAssign dst src).2 = dst ∧
    ((IntOrValue.movAssign dst src).2 = IntOrValue.mkDefault ↔
      dst = IntOrValue.mkDefault) :=
  ⟨rfl, rfl, Iff.rfl⟩

/-- Counterexample to claim C7: move-assigning from an instance holding
the integer 7 into an instance holding the integer 5 leaves the source
holding the integer 5 — not the default-constructed instance (integer 0)
— even though the destination does receive what the source held. -/
theorem c7_counterexample :
    ((IntOrValue.movAssign (IntOrValue.ofInt 5 : IntOrValue Unit)
        (IntOrValue.ofInt 7)).1 = IntOrValue.ofInt 7) ∧
    ((IntOrValue.movAssign (IntOrValue.ofInt 5 : IntOrValue Unit)
        (IntOrValue.ofInt 7)).2 ≠ IntOrValue.mkDefault) := by
  exact ⟨rfl, by decide⟩

/-- Claim C7 as amended: move construction of the tagged type leaves the
source at the default integer 0 with the new instance holding the prior
source, and move assignment does the same when the destination
previously held the default (in general it exchanges the two contents,
see the C10 theorem). For the deferred-copy wrapper, move assignment
always leaves the source lazy-default while the destination receives
exactly the prior source handle. -/
theorem c7_move_resets_to_default (T : Type) (x : IntOrValue T)
    (h : RefHeap T) (cdst csrc : CopyOnWrite T) :
    IntOrValue.movCtor x = (x, IntOrValue.mkDefault) ∧
    IntOrValue.movAssign IntOrValue.mkDefault x =
      (x, IntOrValue.mkDefault) ∧
    (CopyOnWrite.MovAssignH h cdst csrc).1 = ⟨csrc.ref⟩ ∧
    (CopyOnWrite.MovAssignH h cdst csrc).2.1.LazyDefault = true :=
  ⟨rfl, rfl, rfl, rfl⟩


/-- Claim C2 as a theorem: on a wrapper holding a handle it solely owns
(reference count one), `AsMutable` claims the handle in place: the heap
is untouched (in particular no copy of the element type is made), the
returned reference points into the same cell, the wrapper again solely
owns its handle, and a second call in a row behaves identically,
returning the same cell. -/
theorem c2_sole_owner_no_clone (T : Type) (d : T) (h : RefHeap T)
    (c : CopyOnWrite T) (a : Nat) (href : c.ref = some a)
    (hrc : h.rc a = 1) :
    CopyOnWrite.AsMutable d h c = some (a, ⟨some a⟩, h) ∧
    CopyOnWrite.AsMutable d h (⟨some a⟩ : CopyOnWrite T) =
      some (a, ⟨some a⟩, h) ∧
    h.rc a = 1 := by
  refine ⟨?_, ?_, hrc⟩ <;>
    simp [CopyOnWrite.AsMutable, CopyOnWrite.AsMutableNoDef,
      attemptToClaim, href, hrc]

/-- Witness for C2: a heap holding exactly one cell with value 7 and
reference count one. -/
theorem c2_witness :
    CopyOnWrite.AsMutable 0 ((RefHeap.empty Nat).alloc 7).2
      (⟨some 0⟩ : CopyOnWrite Nat) =
      some (0, ⟨some 0⟩, ((RefHeap.empty Nat).alloc 7).2) :=
  (c2_sole_owner_no_clone Nat 0 ((RefHeap.empty Nat).alloc 7).2
    ⟨some 0⟩ 0 rfl rfl).1

/-- Claim C3 as a theorem: for a wrapper `c` holding cell `a` (with at
least its own alias) on a well-formed heap (`next` is fresh), the const
`With` overload clones unconditionally: the result holds a fresh cell
distinct from `a`, the old pointee is unchanged, the new pointee equals
the mutator applied to the old value, exactly one copy of the element
type was made through its copy constructor, the old cell keeps its prior
reference count and the fresh cell is solely owned. -/
theorem c3_copy_on_write_isolation (T : Type) (f : T → T) (h : RefHeap T)
    (c : CopyOnWrite T) (a : Nat) (va : T)
    (href : c.ref = some a) (hva : h.val a = some va)
    (hrc : 1 ≤ h.rc a) (hfresh : h.val h.next = none) :
    a ≠ h.next ∧
    (CopyOnWrite.With f h c).map (fun r => r.1.ref) =
      some (some h.next) ∧
    (CopyOnWrite.With f h c).map (fun r => r.2.val a) = some (some va) ∧
    (CopyOnWrite.With f h c).map (fun r => r.2.val h.next) =
      some (some (f va)) ∧
    (CopyOnWrite.With f h c).map (fun r => r.2.copies) =
      some (h.copies + 1) ∧
    (CopyOnWrite.With f h c).map (fun r => r.2.rc a) = some (h.rc a) ∧
    (CopyOnWrite.With f h c).map (fun r => r.2.rc h.next) = some 1 := by
  have hne : a ≠ h.next := by
    intro e
    rw [e, hfresh] at hva
    exact Option.noConfusion hva
  have hrc1 : ¬(h.rc a + 1 = 1) := by omega
  have hrc2 : ¬(h.rc a + 1 ≤ 1) := by omega
  refine ⟨hne, ?_, ?_, ?_, ?_, ?_, ?_⟩ <;>
    simp [CopyOnWrite.With, CopyOnWrite.WithConsuming,
      CopyOnWrite.AsMutableNoDef, attemptToClaim, RefHeap.incIf,
      RefHeap.incRef, RefHeap.allocCopy, RefHeap.alloc, RefHeap.decRef,
      RefHeap.setVal, href, hva, hrc1, hrc2, hne, Ne.symm hne]

/-- Witness for C3: a heap with one cell (value 7, reference count one)
and the successor mutator; the fresh cell receives the value 8. -/
theorem c3_witness :
    (CopyOnWrite.With (fun x => x + 1) ((RefHeap.empty Nat).alloc 7).2
        (⟨some 0⟩ : CopyOnWrite Nat)).map (fun r => r.2.val 1) =
      some (some 8) :=
  (c3_copy_on_write_isolation Nat (fun x => x + 1)
    ((RefHeap.empty Nat).alloc 7).2 ⟨some 0⟩ 0 7 rfl rfl (by decide)
    rfl).2.2.2.1

/-- Claim C4 evidence: on a default-constructed (lazy-default) wrapper
the consuming `With` overload runs the base-class `AsMutable`, which
attempts to claim the null handle: no default value is materialized and
the call is undefined. The derived `AsMutable` — the routine the claim
describes and the one the consuming `With` bypasses — does materialize a
fresh, solely owned, default-constructed value. -/
theorem c4_with_bypasses_materialization (T : Type) (f : T → T) (d : T)
    (h : RefHeap T) :
    CopyOnWrite.WithConsuming f h (⟨none⟩ : CopyOnWrite T) = none ∧
    CopyOnWrite.With f h (⟨none⟩ : CopyOnWrite T) = none ∧
    CopyOnWrite.AsMutable d h (⟨none⟩ : CopyOnWrite T) =
      some (h.next, ⟨some h.next⟩, (h.alloc d).2) :=
  ⟨rfl, rfl, rfl⟩

/-- Claim C5 as a theorem: default construction of the wrapper performs
no heap operation; two default-constructed wrappers both dereference to
the shared process-wide default location; dereferencing performs no heap
operation either, so the construction count of the element type stays
what it was (0 on a fresh heap) until `AsMutable` is first invoked,
which then constructs exactly one value. -/
theorem c5_lazy_default_sharing (T : Type) (d : T) (h : RefHeap T) :
    (CopyOnWrite.MkDefaultH T h).2 = h ∧
    (CopyOnWrite.DerefH h (CopyOnWrite.MkDefaultH T h).1).1 =
      CopyOnWrite.DerefLoc.sharedDefault ∧
    (CopyOnWrite.DerefH h (CopyOnWrite.MkDefaultH T h).1).1 =
      (CopyOnWrite.DerefH h
        (CopyOnWrite.MkDefaultH T (CopyOnWrite.MkDefaultH T h).2).1).1 ∧
    (CopyOnWrite.DerefH h (CopyOnWrite.MkDefaultH T h).1).2 = h ∧
    (RefHeap.empty T).constructions = 0 ∧
    ((CopyOnWrite.AsMutable d h (CopyOnWrite.MkDefaultH T h).1).map
      (fun r => r.2.2.constructions)) = some (h.constructions + 1) :=
  ⟨rfl, rfl, rfl, rfl, rfl, rfl⟩


/-- Claim C8 as a theorem: equality of two tagged instances holds exactly
when both hold integers with equal decoded value, or both hold handles
whose pointees compare equal by the equality of the element type; an
integer-holding and a handle-holding instance are never equal, in either
argument order, whatever the numbers involved. The integer bounds are
the representable range (plus and minus 2 to the 62nd power). -/
theorem c8_equality (T : Type) [BEq T] (h : RefHeap T) (v w : Int)
    (a b : Nat) (va vb : T)
    (hva : h.val a = some va) (hvb : h.val b = some vb)
    (hv1 : -4611686018427387904 ≤ v) (hv2 : v < 4611686018427387904)
    (hw1 : -4611686018427387904 ≤ w) (hw2 : w < 4611686018427387904) :
    IntOrRef.beq h (IntOrRef.ofInt v : IntOrRef T) (IntOrRef.ofInt w) =
      some (v == w) ∧
    IntOrRef.beq h (IntOrRef.ofRef a : IntOrRef T) (IntOrRef.ofRef b) =
      some (va == vb) ∧
    IntOrRef.beq h (IntOrRef.ofInt v : IntOrRef T) (IntOrRef.ofRef b) =
      some false ∧
    IntOrRef.beq h (IntOrRef.ofRef a : IntOrRef T) (IntOrRef.ofInt w) =
      some false := by
  have hnv := ofInt_number Nat v hv1 hv2
  have hnw := ofInt_number Nat w hw1 hw2
  refine ⟨?_, ?_, ?_, rfl⟩
  · show some ((IntOrRef.ofInt v : IntOrRef T).number ==
        (IntOrRef.ofInt w : IntOrRef T).number) = some (v == w)
    rw [show (IntOrRef.ofInt v : IntOrRef T).number = some v from hnv,
        show (IntOrRef.ofInt w : IntOrRef T).number = some w from hnw]
    rfl
  · simp only [IntOrRef.beq, IntOrRef.ref, IntOrRef.ofRef,
      IntOrValue.inPlace, IntOrValue.value, hva, hvb]
  · show some ((IntOrRef.ofInt v : IntOrRef T).number ==
        (IntOrRef.ofRef b : IntOrRef T).number) = some false
    rw [show (IntOrRef.ofInt v : IntOrRef T).number = some v from hnv]
    rfl

/-- Witness for C8: a heap with two distinct cells both holding value 3;
the two handle instances compare equal. -/
theorem c8_witness :
    IntOrRef.beq ((((RefHeap.empty Nat).alloc 3).2.alloc 3).2)
      (IntOrRef.ofRef 0 : IntOrRef Nat) (IntOrRef.ofRef 1) = some true :=
  (c8_equality Nat ((((RefHeap.empty Nat).alloc 3).2.alloc 3).2) 4 4 0 1
    3 3 rfl rfl (by decide) (by decide) (by decide) (by decide)).2.1

/-- One operation applied to a tracked `CopyOnWrite` wrapper and its
heap. `assignFrom r` is the copy (or move) assignment into the tracked
wrapper, where `r` is the handle field of the source wrapper — null
exactly when the source is lazy-default. `aliasAway` is the copy
construction of some other wrapper from the tracked one, and
`dropAlias a` is the destruction of an external alias of cell `a`. -/
inductive CowOp (T : Type) where
  | asMutable
  | mutateTo (v : T)
  | assignFrom (r : Option Nat)
  | aliasAway
  | dropAlias (a : Nat)
deriving DecidableEq

/-- Effect of one operation; `d` is the default-constructed value of the
element type. Undefined (`none`) exactly where the underlying operations
are. -/
def CowStep (d : T) (op : CowOp T) (s : CopyOnWrite T × RefHeap T) :
    Option (CopyOnWrite T × RefHeap T) :=
  match op with
  | .asMutable =>
    (CopyOnWrite.AsMutable d s.2 s.1).map fun r => (r.2.1, r.2.2)
  | .mutateTo v =>
    (CopyOnWrite.AsMutable d s.2 s.1).map fun r =>
      (r.2.1, r.2.2.setVal r.1 v)
  | .assignFrom r => some (⟨r⟩, (s.2.decIf s.1.ref).incIf r)
  | .aliasAway => some (s.1, s.2.incIf s.1.ref)
  | .dropAlias a => some (s.1, s.2.decRef a)

/-- Sequencing of wrapper operations. -/
def CowRun (d : T) : List (CowOp T) → CopyOnWrite T × RefHeap T →
    Option (CopyOnWrite T × RefHeap T)
  | [], s => some s
  | op :: ops, s => (CowStep d op s).bind (CowRun d ops)

theorem asMutableNoDef_nonlazy {T : Type} {h : RefHeap T}
    {c : CopyOnWrite T} {r : Nat × CopyOnWrite T × RefHeap T}
    (heq : CopyOnWrite.AsMutableNoDef h c = some r) :
    r.2.1.LazyDefault = false := by
  unfold CopyOnWrite.AsMutableNoDef at heq
  split at heq
  · simp at heq
  · split at heq
    · cases Option.some.inj heq
      rfl
    · split at heq
      · simp at heq
      · cases Option.some.inj heq
        rfl

theorem asMutable_nonlazy {T : Type} {d : T} {h : RefHeap T}
    {c : CopyOnWrite T} {r : Nat × CopyOnWrite T × RefHeap T}
    (heq : CopyOnWrite.AsMutable d h c = some r) :
    r.2.1.LazyDefault = false := by
  unfold CopyOnWrite.AsMutable at heq
  split at heq
  · cases Option.some.inj heq
    rfl
  · exact asMutableNoDef_nonlazy heq

/-- Counterexample to claim C6: a wrapper that has taken a mutable
reference through `AsMutable` (and is therefore not lazy-default)
becomes lazy-default again when a default-constructed wrapper is
assigned into it. -/
theorem c6_counterexample :
    (CowRun 0 [CowOp.asMutable, CowOp.assignFrom none]
        ((⟨none⟩ : CopyOnWrite Nat), RefHeap.empty Nat)).map
      (fun s => s.1.LazyDefault) = some true := rfl

/-- Claim C6 as amended: once `AsMutable` succeeds the wrapper is not in
the lazy-default state, and it stays out of it under every subsequent
sequence of operations that never assigns a lazy-default wrapper (a null
source handle) into it. -/
theorem c6_nonlazy_after_mutable (T : Type) (d : T) :
    (∀ (h : RefHeap T) (c : CopyOnWrite T)
        (r : Nat × CopyOnWrite T × RefHeap T),
        CopyOnWrite.AsMutable d h c = some r →
        r.2.1.LazyDefault = false) ∧
    (∀ (ops : List (CowOp T)) (s t : CopyOnWrite T × RefHeap T),
        CowOp.assignFrom none ∉ ops →
        CowRun d ops s = some t →
        s.1.LazyDefault = false →
        t.1.LazyDefault = false) := by
  refine ⟨fun h c r heq => asMutable_nonlazy heq, ?_⟩
  intro ops
  induction ops with
  | nil =>
    intro s t _ hrun hs
    rw [CowRun] at hrun
    cases Option.some.inj hrun
    exact hs
  | cons op ops ih =>
    intro s t hmem hrun hs
    rw [CowRun] at hrun
    rcases hstep : CowStep d op s with _ | s1
    · rw [hstep] at hrun
      simp at hrun
    · rw [hstep] at hrun
      simp only [Option.some_bind] at hrun
      refine ih s1 t (fun hm => hmem (List.mem_cons_of_mem op hm)) hrun ?_
      cases op with
      | asMutable =>
        simp only [CowStep] at hstep
        rcases ha : CopyOnWrite.AsMutable d s.2 s.1 with _ | r
        · rw [ha] at hstep
          simp at hstep
        · rw [ha] at hstep
          simp only [Option.map_some'] at hstep
          cases Option.some.inj hstep
          exact asMutable_nonlazy ha
      | mutateTo v =>
        simp only [CowStep] at hstep
        rcases ha : CopyOnWrite.AsMutable d s.2 s.1 with _ | r
        · rw [ha] at hstep
          simp at hstep
        · rw [ha] at hstep
          simp only [Option.map_some'] at hstep
          cases Option.some.inj hstep
          exact asMutable_nonlazy ha
      | assignFrom rr =>
        simp only [CowStep] at hstep
        cases Option.some.inj hstep
        cases rr with
        | none => exact absurd (List.mem_cons_self _ _) hmem
        | some x => rfl
      | aliasAway =>
        simp only [CowStep] at hstep
        cases Option.some.inj hstep
        exact hs
      | dropAlias a =>
        simp only [CowStep] at hstep
        cases Option.some.inj hstep
        exact hs

/-- Witness for the amended C6: a non-lazy wrapper stays non-lazy under
an aliasing operation. -/
theorem c6_witness :
    ((⟨some 0⟩ : CopyOnWrite Nat), (RefHeap.empty Nat).incRef 0).1.LazyDefault =
      false :=
  (c6_nonlazy_after_mutable Nat 0).2 [CowOp.aliasAway]
    ((⟨some 0⟩ : CopyOnWrite Nat), RefHeap.empty Nat)
    ((⟨some 0⟩ : CopyOnWrite Nat), (RefHeap.empty Nat).incRef 0)
    (by decide) rfl rfl

end Refptr
